import Mathlib

/-!
Verification of the iterative search-refinement loop of
`src/advanced_refinement.py` (with the enrichment-trigger endings of
`src/simple_example.py` and `src/instantly_workflow.py`).

The embedding models Python JSON-ish values as the inductive `Value`,
a Python dict as an insertion-ordered association list, the filter-edit
function `apply_filter_change` directly from the source, and the `main`
refinement loop as a fuel-indexed recursion `runLoop` over an environment
`Env` that supplies the behaviour of the two external collaborators
(the lead-count preview endpoint and the LLM advisor) and of the user
confirmation prompts.  API calls made by the program are recorded in an
event trace (`Event.preview`, `Event.enrich`).
-/

namespace InstantlyRefinement

/-- JSON-like values appearing in a filter set: numbers, strings, booleans,
lists and one-level dictionaries (Python dicts as ordered association lists). -/
inductive Value where
  | vInt : Int → Value
  | vStr : String → Value
  | vBool : Bool → Value
  | vList : List Value → Value
  | vDict : List (String × Value) → Value

/-- A FilterSet is a Python dict mapping filter-category names to values. -/
abbrev FilterSet := List (String × Value)

/-- Python dict lookup `d[k]` / `d.get(k)`: first binding of the key. -/
def dictLookup (d : List (String × Value)) (k : String) : Option Value :=
  match d with
  | [] => none
  | (k2, v) :: rest => if k2 = k then some v else dictLookup rest k

/-- Python membership test `k in d`. -/
def dictMem (d : List (String × Value)) (k : String) : Bool :=
  (dictLookup d k).isSome

/-- Python dict assignment `d[k] = v`: replace in place if the key exists,
otherwise append the new binding at the end (insertion order). -/
def dictSet (d : List (String × Value)) (k : String) (v : Value) :
    List (String × Value) :=
  match d with
  | [] => [(k, v)]
  | (k2, w) :: rest =>
    if k2 = k then (k2, v) :: rest else (k2, w) :: dictSet rest k v

/-- Python `del d[k]` (on a dict with unique keys): drop the binding. -/
def dictRemove (d : List (String × Value)) (k : String) :
    List (String × Value) :=
  d.filter (fun p => p.1 != k)

/-- Python `d.update(other)`: assign every binding of `other` into `d`. -/
def dictUpdate (d other : List (String × Value)) : List (String × Value) :=
  other.foldl (fun acc kv => dictSet acc kv.1 kv.2) d

/-- A suggested filter change, as consumed by `apply_filter_change`
(fields `change["filter"]`, `change["action"]`, `change["value"]`). -/
structure Change where
  filter : String
  action : String
  value : Value

/-- Embedding of `apply_filter_change` (src/advanced_refinement.py lines
125-148).  The Python function may raise `AttributeError`: in the `add`
branch an absent category is first initialised to the empty dict `{}`, and
`.update` then requires a dict while `.extend` requires a list; the
exceptional outcome is modelled as `Except.error`.  An unknown action
falls through and returns the filters unchanged. -/
def apply_filter_change (filters : FilterSet) (change : Change) :
    Except String FilterSet :=
  if change.action = "set" then
    Except.ok (dictSet filters change.filter change.value)
  else if change.action = "add" then
    let nf : FilterSet :=
      if dictMem filters change.filter then filters
      else dictSet filters change.filter (Value.vDict [])
    match change.value with
    | Value.vDict d =>
      match dictLookup nf change.filter with
      | some (Value.vDict cur) =>
        Except.ok (dictSet nf change.filter (Value.vDict (dictUpdate cur d)))
      | _ => Except.error "AttributeError: object has no attribute update"
    | Value.vList l =>
      let nf2 : FilterSet :=
        if dictMem nf change.filter then nf
        else dictSet nf change.filter (Value.vList [])
      match dictLookup nf2 change.filter with
      | some (Value.vList cur) =>
        Except.ok (dictSet nf2 change.filter (Value.vList (cur ++ l)))
      | _ => Except.error "AttributeError: object has no attribute extend"
    | _ => Except.ok nf
  else if change.action = "remove" then
    Except.ok (if dictMem filters change.filter
               then dictRemove filters change.filter else filters)
  else
    Except.ok filters

/-- The loop applies each confirmed change in order
(the for loop over the suggested changes of one batch); an exception raised
mid-way leaves the earlier changes applied and is caught by the enclosing
`except` block, signalled here by the `false` flag. -/
def applyAll (filters : FilterSet) : List Change → FilterSet × Bool
  | [] => (filters, true)
  | c :: cs =>
    match apply_filter_change filters c with
    | Except.ok f2 => applyAll f2 cs
    | Except.error _ => (filters, false)

/-- Target band used by the manual fallback branch of `main`
(src/advanced_refinement.py line 267: `elif count < 500`). -/
def lower_bound : Nat := 500

/-- Target band used by the manual fallback branch of `main`
(src/advanced_refinement.py line 264: `if count > 2000`). -/
def upper_bound : Nat := 2000

/-- Outcome of the manual fallback branch (lines 264-272): narrow, broaden,
or accept the count and leave the loop. -/
inductive FallbackAdvice where
  | narrow
  | broaden
  | goodProceed

/-- The deterministic manual fallback rule of the `except` block of `main`
(lines 264-272): narrow when above the band, broaden when below, otherwise
the count looks good and the loop breaks. -/
def manual_fallback (count : Nat) : FallbackAdvice :=
  if count > upper_bound then FallbackAdvice.narrow
  else if count < lower_bound then FallbackAdvice.broaden
  else FallbackAdvice.goodProceed

/-- The fields of the advisor response that influence control flow
(the recommendation string and the suggested-changes list). -/
structure Suggestions where
  recommendation : String
  suggested_changes : List Change

/-- Behaviour of the external collaborators and of the interactive prompts,
per iteration.  `evaluate` is `preview_search` (count or a raised transport
error), `advise` is `get_ai_refinement_suggestions` (parsed response or any
exception), and the three Bool functions are the per-iteration y/n prompts.
`confirmEnrich` is the raw answer typed at the final enrichment prompt. -/
structure Env where
  evaluate : Nat → FilterSet → Except Unit Nat
  advise : String → Nat → FilterSet → Nat → List Nat → Except Unit Suggestions
  confirmPivot : Nat → Bool
  confirmApply : Nat → Bool
  confirmManual : Nat → Bool
  confirmEnrich : String

/-- API calls issued by the program: a free preview of a filter set, or the
credit-spending enrichment request with its `limit` field. -/
inductive Event where
  | preview : FilterSet → Event
  | enrich : FilterSet → Nat → Event

/-- Reasons the `while` loop of `main` can end and fall through to the
final section of the script. -/
inductive TerminalReason where
  | target_reached
  | user_declined
  | exhausted

/-- How the refinement loop ends.  `aborted` is an uncaught exception
propagating out of `main`; `pivotReturn` is the `return` statement after a
declined pivot (which skips the final section); `finished` reaches the final
section carrying the current filters, the last count, the count history and
the iteration counter. -/
inductive LoopExit where
  | aborted
  | pivotReturn
  | finished (reason : TerminalReason) (filters : FilterSet) (count : Nat)
      (history : List Nat) (iteration : Nat)

/-- Result of one pass through the loop body: `next` continues with updated
state, the others leave the loop as in `LoopExit`. -/
inductive StepOut where
  | aborted
  | pivotReturn
  | finished (reason : TerminalReason) (filters : FilterSet) (count : Nat)
      (history : List Nat) (iteration : Nat)
  | next (filters : FilterSet) (history : List Nat) (count : Nat)

/-- The `except` branch of the loop body: apply the manual fallback rule;
narrowing and broadening only print suggestions (no state change), a good
count breaks out of the loop. -/
def fallbackStep (it : Nat) (f : FilterSet) (count : Nat) (h2 : List Nat) :
    StepOut :=
  match manual_fallback count with
  | FallbackAdvice.narrow => StepOut.next f h2 count
  | FallbackAdvice.broaden => StepOut.next f h2 count
  | FallbackAdvice.goodProceed =>
    StepOut.finished TerminalReason.target_reached f count h2 it

/-- One pass of the loop body of `main` (lines 195-272): preview the current
filters (an error here is uncaught and aborts the run), append the count to
the history, then ask the advisor inside the `try` block.  On advisor success:
`proceed` breaks, a declined `pivot` returns from `main`, otherwise nonempty
confirmed changes are applied in order (an exception mid-apply falls into the
manual fallback with the partially updated filters), declined changes without
a manual follow-up break out of the loop.  On advisor failure the manual
fallback rule runs. -/
def loopStep (env : Env) (goal : String) (it : Nat) (f : FilterSet)
    (h : List Nat) : StepOut :=
  match env.evaluate it f with
  | Except.error _ => StepOut.aborted
  | Except.ok count =>
    let h2 := h ++ [count]
    match env.advise goal it f count h2 with
    | Except.error _ => fallbackStep it f count h2
    | Except.ok s =>
      if s.recommendation = "proceed" then
        StepOut.finished TerminalReason.target_reached f count h2 it
      else if s.recommendation = "pivot" ∧ env.confirmPivot it = false then
        StepOut.pivotReturn
      else
        match s.suggested_changes with
        | [] => StepOut.next f h2 count
        | c :: cs =>
          if env.confirmApply it then
            match applyAll f (c :: cs) with
            | (f2, true) => StepOut.next f2 h2 count
            | (f2, false) => fallbackStep it f2 count h2
          else if env.confirmManual it then StepOut.next f h2 count
          else StepOut.finished TerminalReason.user_declined f count h2 it

/-- The `while iteration <= MAX_ITERATIONS` loop of `main`, with the
iteration bound as a parameter and a fuel argument for the recursion (the
fuel is always at least the number of remaining iterations plus one, so the
fuel-exhausted case coincides with the loop-guard exit).  Returns how the
loop ended together with the trace of API calls it made. -/
def runLoop (env : Env) (maxIter : Nat) (goal : String) :
    Nat → Nat → FilterSet → List Nat → Nat → LoopExit × List Event
  | 0, it, f, h, lc => (LoopExit.finished TerminalReason.exhausted f lc h it, [])
  | fuel + 1, it, f, h, lc =>
    if maxIter < it then
      (LoopExit.finished TerminalReason.exhausted f lc h it, [])
    else
      match loopStep env goal it f h with
      | StepOut.aborted => (LoopExit.aborted, [Event.preview f])
      | StepOut.pivotReturn => (LoopExit.pivotReturn, [Event.preview f])
      | StepOut.finished r f2 c h2 it2 =>
        (LoopExit.finished r f2 c h2 it2, [Event.preview f])
      | StepOut.next f2 h2 c =>
        let r := runLoop env maxIter goal fuel (it + 1) f2 h2 c
        (r.1, Event.preview f :: r.2)

/-- The iteration bound hard-coded in src/advanced_refinement.py line 24. -/
def MAX_ITERATIONS : Nat := 5

/-- The refinement loop of `main`: iteration starts at 1 with an empty count
history. -/
def run (env : Env) (maxIter : Nat) (goal : String) (initial : FilterSet) :
    LoopExit × List Event :=
  runLoop env maxIter goal (maxIter + 1) 1 initial [] 0

/-- Python `str.lower()` on the characters of a string. -/
def pyLower (s : String) : String :=
  String.mk (s.data.map Char.toLower)

/-- Python `str.strip()`: drop whitespace from both ends. -/
def pyStrip (s : String) : String :=
  String.mk
    (((s.data.dropWhile Char.isWhitespace).reverse.dropWhile
        Char.isWhitespace).reverse)

/-- The final enrichment prompt check of `main` (line 303):
the stripped lowercased answer must be the word yes or the letter y. -/
def isAffirmative (s : String) : Bool :=
  pyLower (pyStrip s) == "yes" || pyLower (pyStrip s) == "y"

/-- The final section of `main` (lines 301-336): on an affirmative answer
send the enrichment request with `limit = min(count, 1000)`, otherwise send
nothing. -/
def finalPhase (env : Env) (f : FilterSet) (count : Nat) : List Event :=
  if isAffirmative env.confirmEnrich then [Event.enrich f (min count 1000)]
  else []

/-- The full trace of API calls of `main`: the loop trace, followed by the
final section when (and only when) the loop fell through to it. -/
def mainEvents (env : Env) (maxIter : Nat) (goal : String)
    (initial : FilterSet) : List Event :=
  match run env maxIter goal initial with
  | (LoopExit.finished _ f c _ _, tr) => tr ++ finalPhase env f c
  | (_, tr) => tr

/-- The deliberately broad starting filters of `main`
(src/advanced_refinement.py lines 171-181). -/
def initial_filters : FilterSet :=
  [("locations", Value.vDict
      [("include", Value.vList
          [Value.vDict [("country", Value.vStr "US"), ("state", Value.vStr "CO")]]),
       ("exclude", Value.vList [])]),
   ("job_titles", Value.vDict
      [("include", Value.vList
          [Value.vStr "CEO", Value.vStr "Chief Executive Officer",
           Value.vStr "Founder", Value.vStr "Co-Founder"]),
       ("exclude", Value.vList [Value.vStr "Assistant", Value.vStr "Associate"])]),
   ("management_levels", Value.vList [Value.vStr "c_level"])]

/-- True exactly on the preview events of a trace. -/
def isPreviewEvent : Event → Bool
  | Event.preview _ => true
  | Event.enrich _ _ => false

/-- Number of preview (lead-count evaluation) calls recorded in a trace. -/
def previewCalls (tr : List Event) : Nat :=
  (tr.filter isPreviewEvent).length

/- Concrete collaborator behaviours used to exercise the theorems below. -/

/-- Environment whose preview call always fails with a transport error. -/
def envEvalFail : Env where
  evaluate := fun _ _ => Except.error ()
  advise := fun _ _ _ _ _ => Except.ok ⟨"proceed", []⟩
  confirmPivot := fun _ => true
  confirmApply := fun _ => true
  confirmManual := fun _ => true
  confirmEnrich := "yes"

/-- Environment whose advisor always answers refine with no edits. -/
def envRefineEmpty : Env where
  evaluate := fun _ _ => Except.ok 1000
  advise := fun _ _ _ _ _ => Except.ok ⟨"refine", []⟩
  confirmPivot := fun _ => true
  confirmApply := fun _ => true
  confirmManual := fun _ => true
  confirmEnrich := "no"

/-- Environment whose advisor always answers proceed. -/
def envAlwaysProceed : Env where
  evaluate := fun _ _ => Except.ok 700
  advise := fun _ _ _ _ _ => Except.ok ⟨"proceed", []⟩
  confirmPivot := fun _ => true
  confirmApply := fun _ => true
  confirmManual := fun _ => true
  confirmEnrich := "yes"

/-- Environment like `envAlwaysProceed` but declining the enrichment prompt. -/
def envDeclineEnrich : Env where
  evaluate := fun _ _ => Except.ok 700
  advise := fun _ _ _ _ _ => Except.ok ⟨"proceed", []⟩
  confirmPivot := fun _ => true
  confirmApply := fun _ => true
  confirmManual := fun _ => true
  confirmEnrich := "no"

/-- Environment that confirms enrichment after a large previewed count. -/
def envBigCount : Env where
  evaluate := fun _ _ => Except.ok 4321
  advise := fun _ _ _ _ _ => Except.ok ⟨"proceed", []⟩
  confirmPivot := fun _ => true
  confirmApply := fun _ => true
  confirmManual := fun _ => true
  confirmEnrich := "yes"

section DictLemmas

theorem dictLookup_dictSet_self (d : List (String × Value)) (k : String)
    (v : Value) : dictLookup (dictSet d k v) k = some v := by
  induction d with
  | nil => simp [dictSet, dictLookup]
  | cons p rest ih =>
    obtain ⟨k2, w⟩ := p
    by_cases h : k2 = k
    · simp [dictSet, dictLookup, h]
    · simp [dictSet, dictLookup, h, ih]

theorem dictLookup_dictSet_ne (d : List (String × Value)) (k : String)
    (v : Value) (y : String) (hy : y ≠ k) :
    dictLookup (dictSet d k v) y = dictLookup d y := by
  induction d with
  | nil =>
    have : k ≠ y := fun h => hy h.symm
    simp [dictSet, dictLookup, this]
  | cons p rest ih =>
    obtain ⟨k2, w⟩ := p
    by_cases h : k2 = k
    · subst h
      have : k2 ≠ y := fun h => hy h.symm
      simp [dictSet, dictLookup, this]
    · by_cases h2 : k2 = y
      · simp [dictSet, dictLookup, h, h2, hy]
      · simp [dictSet, dictLookup, h, h2, ih]

theorem dictLookup_dictRemove_self (d : List (String × Value)) (k : String) :
    dictLookup (dictRemove d k) k = none := by
  induction d with
  | nil => simp [dictRemove, dictLookup]
  | cons p rest ih =>
    obtain ⟨k2, w⟩ := p
    by_cases h : k2 = k
    · subst h
      simpa [dictRemove, List.filter_cons] using ih
    · have hb : (k2 != k) = true := bne_iff_ne.mpr h
      simpa [dictRemove, List.filter_cons, hb, dictLookup, h] using ih

end DictLemmas

section LoopLemmas

theorem runLoop_past (env : Env) (maxIter : Nat) (goal : String) (it : Nat)
    (hit : maxIter < it) (fuel : Nat) (f : FilterSet) (h : List Nat)
    (lc : Nat) :
    runLoop env maxIter goal fuel it f h lc
      = (LoopExit.finished TerminalReason.exhausted f lc h it, []) := by
  cases fuel with
  | zero => rfl
  | succ n => rw [runLoop, if_pos hit]

theorem runLoop_trace_preview (env : Env) (maxIter : Nat) (goal : String) :
    ∀ fuel it f h lc e, e ∈ (runLoop env maxIter goal fuel it f h lc).2 →
      ∃ g, e = Event.preview g := by
  intro fuel
  induction fuel with
  | zero => intro it f h lc e he; simp [runLoop] at he
  | succ n ih =>
    intro it f h lc e he
    rw [runLoop] at he
    split at he
    · simp at he
    · split at he
      · simp at he; exact ⟨f, he⟩
      · simp at he; exact ⟨f, he⟩
      · simp at he; exact ⟨f, he⟩
      · simp only [List.mem_cons] at he
        rcases he with he | he
        · exact ⟨f, he⟩
        · exact ih _ _ _ _ e he

theorem runLoop_trace_length (env : Env) (maxIter : Nat) (goal : String) :
    ∀ fuel it f h lc,
      (runLoop env maxIter goal fuel it f h lc).2.length ≤ maxIter + 1 - it := by
  intro fuel
  induction fuel with
  | zero => intro it f h lc; simp [runLoop]
  | succ n ih =>
    intro it f h lc
    rw [runLoop]
    split
    · simp
    next hit =>
      have hit2 : it ≤ maxIter := by omega
      split
      · simp; omega
      · simp; omega
      · simp; omega
      next f2 h2 c heq =>
        simp only [List.length_cons]
        have := ih (it + 1) f2 h2 c
        omega

theorem runLoop_refine_empty (env : Env) (maxIter : Nat) (goal : String)
    (init : FilterSet) (c0 : Nat)
    (hadv : ∀ g i f c h, env.advise g i f c h = Except.ok ⟨"refine", []⟩)
    (heval : ∀ i f, env.evaluate i f = Except.ok c0) :
    ∀ fuel it h lc, maxIter + 1 - it < fuel → it ≤ maxIter →
      runLoop env maxIter goal fuel it init h lc
        = (LoopExit.finished TerminalReason.exhausted init c0
            (h ++ List.replicate (maxIter + 1 - it) c0) (maxIter + 1),
           List.replicate (maxIter + 1 - it) (Event.preview init)) := by
  intro fuel
  induction fuel with
  | zero => intro it h lc hf hit; omega
  | succ n ih =>
    intro it h lc hf hit
    rw [runLoop, if_neg (by omega)]
    have hstep : loopStep env goal it init h
        = StepOut.next init (h ++ [c0]) c0 := by
      simp [loopStep, heval, hadv]
    by_cases hcase : it = maxIter
    · subst hcase
      have harith : it + 1 - it = 1 := by omega
      simp only [hstep]
      rw [runLoop_past env it goal (it + 1) (by omega) n init (h ++ [c0]) c0]
      simp [harith]
    · have h1 : it + 1 ≤ maxIter := by omega
      have h2 : maxIter + 1 - (it + 1) < n := by omega
      simp only [hstep]
      rw [ih (it + 1) (h ++ [c0]) c0 h2 h1]
      have harith : maxIter + 1 - it = (maxIter - it) + 1 := by omega
      have harith2 : maxIter + 1 - (it + 1) = maxIter - it := by omega
      simp [harith, harith2, List.replicate_succ]

end LoopLemmas

/-- C7: applying the Edit with action set and target x maps key x to v and
leaves every other key of the FilterSet unchanged. -/
theorem set_edit_frame (F : FilterSet) (x : String) (v : Value) (y : String)
    (hy : y ≠ x) :
    ∃ F2, apply_filter_change F ⟨x, "set", v⟩ = Except.ok F2 ∧
      dictLookup F2 x = some v ∧ dictLookup F2 y = dictLookup F y :=
  ⟨dictSet F x v, rfl, dictLookup_dictSet_self F x v,
    dictLookup_dictSet_ne F x v y hy⟩

/-- Witness for `set_edit_frame` on a concrete one-entry FilterSet. -/
theorem set_edit_frame_witness :
    ∃ F2, apply_filter_change [("a", Value.vInt 1)] ⟨"b", "set", Value.vInt 2⟩
        = Except.ok F2 ∧
      dictLookup F2 "b" = some (Value.vInt 2) ∧
      dictLookup F2 "a" = dictLookup [("a", Value.vInt 1)] "a" :=
  set_edit_frame [("a", Value.vInt 1)] "b" (Value.vInt 2) "a" (by decide)

/-- C9: applying the Edit with action remove always succeeds and leaves the
target key absent, and when the key was already absent the FilterSet is
returned unchanged. -/
theorem remove_edit_spec (F : FilterSet) (x : String) (v : Value) :
    (∃ F2, apply_filter_change F ⟨x, "remove", v⟩ = Except.ok F2 ∧
       dictLookup F2 x = none) ∧
    (dictLookup F x = none →
       apply_filter_change F ⟨x, "remove", v⟩ = Except.ok F) := by
  have heq : apply_filter_change F ⟨x, "remove", v⟩
      = Except.ok (if dictMem F x then dictRemove F x else F) := rfl
  constructor
  · by_cases hm : dictMem F x = true
    · refine ⟨dictRemove F x, ?_, dictLookup_dictRemove_self F x⟩
      rw [heq, if_pos hm]
    · refine ⟨F, ?_, ?_⟩
      · rw [heq, if_neg hm]
      · unfold dictMem at hm
        simpa using hm
  · intro hnone
    have hm : dictMem F x = false := by unfold dictMem; rw [hnone]; rfl
    rw [heq, if_neg (by simp [hm])]

/-- Witness for `remove_edit_spec`: removing an absent key is the identity. -/
theorem remove_edit_spec_witness :
    apply_filter_change [("a", Value.vInt 1)] ⟨"b", "remove", Value.vInt 0⟩
      = Except.ok [("a", Value.vInt 1)] :=
  (remove_edit_spec [("a", Value.vInt 1)] "b" (Value.vInt 0)).2 rfl

/-- C2: the code contradicts the claim at this input.  Applying the Edit
with action add and a list value to a FilterSet in which the category is
absent raises AttributeError instead of creating the category with that
list, because the add branch pre-initialises the absent category to an
empty dict and a dict has no extend method. -/
theorem add_list_absent_attribute_error :
    apply_filter_change []
        ⟨"industries", "add", Value.vList [Value.vStr "software"]⟩
      = Except.error "AttributeError: object has no attribute extend" := rfl

/-- C6: the deterministic manual fallback rule suggests narrowing above the
band, broadening below it, and proposes proceeding for every count inside
the inclusive band between lower_bound (500) and upper_bound (2000). -/
theorem manual_fallback_band (count : Nat) :
    (upper_bound < count → manual_fallback count = FallbackAdvice.narrow) ∧
    (count < lower_bound → manual_fallback count = FallbackAdvice.broaden) ∧
    (lower_bound ≤ count → count ≤ upper_bound →
       manual_fallback count = FallbackAdvice.goodProceed) := by
  have hl : lower_bound = 500 := rfl
  have hu : upper_bound = 2000 := rfl
  unfold manual_fallback
  refine ⟨fun h1 => ?_, fun h2 => ?_, fun h3 h4 => ?_⟩
  · rw [if_pos h1]
  · rw [if_neg (by omega), if_pos h2]
  · rw [if_neg (by omega), if_neg (by omega)]

/-- Witness for `manual_fallback_band` at an in-band count. -/
theorem manual_fallback_band_witness :
    manual_fallback 1000 = FallbackAdvice.goodProceed :=
  (manual_fallback_band 1000).2.2 (by decide) (by decide)

/-- C1 counterexample: when the preview call fails at iteration 1 the run
does not continue into any fallback path, it ends as an uncaught abort. -/
theorem evaluation_failure_abort_example :
    (run envEvalFail MAX_ITERATIONS "goal" initial_filters).1
      = LoopExit.aborted := rfl

/-- C1 (amended): a failure of the lead-count evaluation call is not caught
by the loop; the run aborts with the transport error after the single
preview attempt, instead of surfacing the fallback advisory path. -/
theorem evaluation_failure_aborts (env : Env) (maxIter : Nat) (goal : String)
    (init : FilterSet) (hmax : 1 ≤ maxIter)
    (heval : env.evaluate 1 init = Except.error ()) :
    run env maxIter goal init = (LoopExit.aborted, [Event.preview init]) := by
  unfold run
  rw [runLoop, if_neg (by omega)]
  have hstep : loopStep env goal 1 init [] = StepOut.aborted := by
    unfold loopStep
    rw [heval]
  rw [hstep]

/-- Witness for `evaluation_failure_aborts` on a concrete environment. -/
theorem evaluation_failure_aborts_witness :
    run envEvalFail MAX_ITERATIONS "goal" initial_filters
      = (LoopExit.aborted, [Event.preview initial_filters]) :=
  evaluation_failure_aborts envEvalFail MAX_ITERATIONS "goal" initial_filters
    (by decide) rfl

/-- C3 counterexample: with the advisor always returning refine with an
empty edits list and a bound of 3 iterations, the loop is not stopped at the
first such recommendation; it keeps evaluating every iteration with an
unchanged FilterSet and ends exhausted with a history of length 3. -/
theorem refine_empty_continues_example :
    run envRefineEmpty 3 "goal" initial_filters
      = (LoopExit.finished TerminalReason.exhausted initial_filters 1000
          [1000, 1000, 1000] 4,
         [Event.preview initial_filters, Event.preview initial_filters,
          Event.preview initial_filters]) := rfl

/-- C3 (amended): an empty-edit refine recommendation is not treated like
proceed; the controller leaves the FilterSet unchanged and continues to the
next iteration, so a constantly empty refine runs all max_iterations
evaluations and terminates as exhausted. -/
theorem refine_empty_runs_to_exhaustion (env : Env) (maxIter : Nat)
    (goal : String) (init : FilterSet) (c0 : Nat) (hmax : 1 ≤ maxIter)
    (hadv : ∀ g i f c h, env.advise g i f c h = Except.ok ⟨"refine", []⟩)
    (heval : ∀ i f, env.evaluate i f = Except.ok c0) :
    run env maxIter goal init
      = (LoopExit.finished TerminalReason.exhausted init c0
          (List.replicate maxIter c0) (maxIter + 1),
         List.replicate maxIter (Event.preview init)) := by
  have := runLoop_refine_empty env maxIter goal init c0 hadv heval
    (maxIter + 1) 1 [] 0 (by omega) hmax
  unfold run
  simpa using this

/-- Witness for `refine_empty_runs_to_exhaustion` with a bound of 2. -/
theorem refine_empty_runs_to_exhaustion_witness :
    run envRefineEmpty 2 "goal" initial_filters
      = (LoopExit.finished TerminalReason.exhausted initial_filters 1000
          (List.replicate 2 1000) 3,
         List.replicate 2 (Event.preview initial_filters)) :=
  refine_empty_runs_to_exhaustion envRefineEmpty 2 "goal" initial_filters 1000
    (by decide) (fun _ _ _ _ _ => rfl) (fun _ _ => rfl)

/-- C4: whatever the collaborators and the user answers do, the whole
program issues at most max_iterations preview (lead-count evaluation) calls;
the loop is a total function, so every run terminates. -/
theorem evaluation_calls_bounded (env : Env) (maxIter : Nat) (goal : String)
    (init : FilterSet) (_hmax : 1 ≤ maxIter) :
    previewCalls (mainEvents env maxIter goal init) ≤ maxIter := by
  have hlen : (run env maxIter goal init).2.length ≤ maxIter := by
    have := runLoop_trace_length env maxIter goal (maxIter + 1) 1 init [] 0
    unfold run
    simpa using this
  unfold mainEvents
  split
  next f c h it tr heq =>
    have htr : tr.length ≤ maxIter := by rw [heq] at hlen; simpa using hlen
    unfold previewCalls finalPhase
    rw [List.filter_append]
    have h2 : (if isAffirmative env.confirmEnrich
          then [Event.enrich f (min c 1000)] else []).filter isPreviewEvent
        = [] := by
      split <;> simp [isPreviewEvent]
    rw [h2]
    simpa using le_trans (List.length_filter_le _ _) htr
  next ex tr hne heq =>
    have htr : tr.length ≤ maxIter := by rw [heq] at hlen; simpa using hlen
    exact le_trans (le_trans (List.length_filter_le _ _) le_rfl) htr

/-- Witness for `evaluation_calls_bounded` on a concrete environment. -/
theorem evaluation_calls_bounded_witness :
    previewCalls (mainEvents envBigCount MAX_ITERATIONS "goal"
        initial_filters) ≤ MAX_ITERATIONS :=
  evaluation_calls_bounded envBigCount MAX_ITERATIONS "goal" initial_filters
    (by decide)

/-- C5: if the advisor answers proceed at every call and the first preview
succeeds, the loop stops at iteration 1 with terminal reason target_reached,
a history of length 1, and exactly one evaluation call. -/
theorem proceed_stops_at_first_iteration (env : Env) (maxIter : Nat)
    (goal : String) (init : FilterSet) (c : Nat) (hmax : 1 ≤ maxIter)
    (hadv : ∀ g i f cc h, ∃ changes,
      env.advise g i f cc h = Except.ok ⟨"proceed", changes⟩)
    (heval : env.evaluate 1 init = Except.ok c) :
    run env maxIter goal init
      = (LoopExit.finished TerminalReason.target_reached init c [c] 1,
         [Event.preview init]) := by
  unfold run
  rw [runLoop, if_neg (by omega)]
  have hstep : loopStep env goal 1 init []
      = StepOut.finished TerminalReason.target_reached init c [c] 1 := by
    obtain ⟨changes, ha⟩ := hadv goal 1 init c [c]
    simp [loopStep, heval, ha]
  rw [hstep]

/-- Witness for `proceed_stops_at_first_iteration`. -/
theorem proceed_stops_at_first_iteration_witness :
    run envAlwaysProceed MAX_ITERATIONS "goal" initial_filters
      = (LoopExit.finished TerminalReason.target_reached initial_filters 700
          [700] 1,
         [Event.preview initial_filters]) :=
  proceed_stops_at_first_iteration envAlwaysProceed MAX_ITERATIONS "goal"
    initial_filters 700 (by decide) (fun _ _ _ _ _ => ⟨[], rfl⟩) rfl

/-- C8: the refinement loop itself never issues the credit-spending
enrichment request, and when the answer at the dedicated enrichment prompt
is not affirmative the whole program issues no enrichment request at all. -/
theorem no_enrichment_without_confirmation (env : Env) (maxIter : Nat)
    (goal : String) (init : FilterSet) :
    (∀ f l, Event.enrich f l ∉ (run env maxIter goal init).2) ∧
    (isAffirmative env.confirmEnrich = false →
      ∀ f l, Event.enrich f l ∉ mainEvents env maxIter goal init) := by
  have hloop : ∀ f l, Event.enrich f l ∉ (run env maxIter goal init).2 := by
    intro f l hmem
    obtain ⟨g, hg⟩ := runLoop_trace_preview env maxIter goal
      (maxIter + 1) 1 init [] 0 (Event.enrich f l) hmem
    cases hg
  refine ⟨hloop, fun hno f l hmem => ?_⟩
  unfold mainEvents at hmem
  split at hmem
  next f2 c h it tr heq =>
    unfold finalPhase at hmem
    rw [hno] at hmem
    simp only [Bool.false_eq_true, if_false, List.append_nil] at hmem
    have : Event.enrich f l ∈ (run env maxIter goal init).2 := by
      rw [heq]; exact hmem
    exact hloop f l this
  next ex tr hne heq =>
    have : Event.enrich f l ∈ (run env maxIter goal init).2 := by
      rw [heq]; exact hmem
    exact hloop f l this

/-- Witness for `no_enrichment_without_confirmation`: a declined prompt
yields no enrichment event. -/
theorem no_enrichment_without_confirmation_witness :
    Event.enrich initial_filters 700
      ∉ mainEvents envDeclineEnrich MAX_ITERATIONS "goal" initial_filters :=
  (no_enrichment_without_confirmation envDeclineEnrich MAX_ITERATIONS "goal"
    initial_filters).2 rfl initial_filters 700

/-- C10: every enrichment request the program issues carries the limit
min(count, 1000) where count is the last previewed lead count of the run, so
the limit never exceeds 1000 and never exceeds that count. -/
theorem enrich_limit_min (env : Env) (maxIter : Nat) (goal : String)
    (init : FilterSet) (f : FilterSet) (l : Nat)
    (hmem : Event.enrich f l ∈ mainEvents env maxIter goal init) :
    ∃ r c h it tr,
      run env maxIter goal init = (LoopExit.finished r f c h it, tr) ∧
      l = min c 1000 ∧ l ≤ 1000 ∧ l ≤ c := by
  unfold mainEvents at hmem
  split at hmem
  next f2 c h it tr heq =>
    rw [List.mem_append] at hmem
    rcases hmem with hmem | hmem
    · exfalso
      obtain ⟨g, hg⟩ := runLoop_trace_preview env maxIter goal
        (maxIter + 1) 1 init [] 0 (Event.enrich f l) (by
          have : (run env maxIter goal init).2 = tr := by rw [heq]
          rw [run] at this
          rw [this]; exact hmem)
      cases hg
    · unfold finalPhase at hmem
      split at hmem
      · simp only [List.mem_singleton, Event.enrich.injEq] at hmem
        obtain ⟨hf, hl⟩ := hmem
        subst hf
        exact ⟨_, c, h, it, tr, heq, hl,
          by rw [hl]; exact min_le_right c 1000,
          by rw [hl]; exact min_le_left c 1000⟩
      · simp at hmem
  next ex tr hne heq =>
    exfalso
    obtain ⟨g, hg⟩ := runLoop_trace_preview env maxIter goal
      (maxIter + 1) 1 init [] 0 (Event.enrich f l) (by
        have : (run env maxIter goal init).2 = tr := by rw [heq]
        rw [run] at this
        rw [this]; exact hmem)
    cases hg

/-- Witness for `enrich_limit_min`: a confirmed enrichment after a preview
of 4321 leads requests exactly 1000. -/
theorem enrich_limit_min_witness :
    ∃ r c h it tr,
      run envBigCount MAX_ITERATIONS "goal" initial_filters
        = (LoopExit.finished r initial_filters c h it, tr) ∧
      1000 = min c 1000 ∧ 1000 ≤ 1000 ∧ 1000 ≤ c :=
  enrich_limit_min envBigCount MAX_ITERATIONS "goal" initial_filters
    initial_filters 1000 (by
      have hme : mainEvents envBigCount MAX_ITERATIONS "goal" initial_filters
          = [Event.preview initial_filters,
             Event.enrich initial_filters 1000] := rfl
      rw [hme]
      simp)

end InstantlyRefinement
